import Mathlib

/-!
Shallow embedding of the AMM quote engine and the instruction
classifier.

The quote functions (`CalcMinAmountOutBySwap`, `CalcMinAmountOutByAmm` from the
file embedded as part_000, and `CalculateMinAmountOut` from part_005) perform
their arithmetic with the shopspring/decimal Go library.  In that library
`Add`, `Sub` and `Mul` are exact, while `Div` is `DivRound(·, 16)`: the exact
quotient rounded to 16 decimal places, rounding half away from zero, and a zero
divisor panics.  A decimal value is always a rational number, so we model
decimal values as `ℚ` and `Div` as `divRound16` below; the panic on a zero
divisor is modelled by the explicit `divByZero` result constructor.
`IntPart` truncates towards zero; every call site first checks the value is
positive, where truncation coincides with `Int.floor`.  The subsequent Go
conversions (`big.Int.Int64` inside `IntPart`, then the `uint64` cast) keep
only the low 64 bits, so the value actually returned is the integer part
reduced modulo `2^64`: `intPartU64` and the `...U` function variants model
that composite in full, while `intPartU` and the plain variants are the
value-level idealisation that agrees with Go exactly when the integer part is
below `2^64` (as it is in every theorem stated over them).
-/

namespace TradingBot

/-- Rounding half away from zero to an integer, as the shopspring decimal
`DivRound` operation does at the last kept digit. -/
def rndAway (x : ℚ) : ℤ :=
  if 0 ≤ x then ⌊x + 1/2⌋ else -⌊-x + 1/2⌋

/-- shopspring decimal division `a.Div(b)`: the quotient rounded to
`DivisionPrecision = 16` decimal places, half away from zero.  The library
panics on `b = 0`; call sites guard that case separately, so the junk value
returned here at `b = 0` is never used. -/
def divRound16 (a b : ℚ) : ℚ :=
  (rndAway (a / b * 10 ^ 16) : ℚ) / 10 ^ 16

/-- Source constant `FeeRateDenominatorValue = decimal.NewFromUint64(1000000)`. -/
def FeeRateDenominatorValue : ℚ := 1000000

/-- Source constant `AllBpDecimal = decimal.NewFromInt(10000)`. -/
def AllBpDecimal : ℚ := 10000

/-- Value-level idealisation of Go `uint64(d.IntPart())` at the quote
functions, all of whose call sites are guarded by a positivity check where
`IntPart` (truncation towards zero) is the floor: the unbounded integer part.
It agrees with the Go composite exactly when the integer part is below
`2^64`; `intPartU64` below models the composite in full. -/
def intPartU (q : ℚ) : ℕ := (⌊q⌋).toNat

/-- Go `uint64(d.IntPart())` in full: at the positivity-guarded call sites
`IntPart` yields the floor, and the `big.Int.Int64` / `uint64` conversions
keep only the low 64 bits, so the returned value is the integer part reduced
modulo `2^64`. -/
def intPartU64 (q : ℚ) : ℕ := (⌊q⌋).toNat % 2 ^ 64

/-- Result of a quote call: `divByZero` models the shopspring panic on a zero
divisor, `ok min exact` a `(min, exact, nil)` return, and `err min exact` a
`(min, exact, non-nil-error)` return. -/
inductive CalcResult where
  | divByZero : CalcResult
  | ok : ℕ → ℕ → CalcResult
  | err : ℕ → ℕ → CalcResult
deriving DecidableEq, Repr

/-- part_000 line 455 / part_005 line 706: `feeRate.Div(1000000)`. -/
def feeRateDecimal (feeRate : ℕ) : ℚ := divRound16 feeRate FeeRateDenominatorValue

/-- part_000 lines 459-460 / part_005 lines 709-710: the input amount after the
fee `amountIn.Mul(feeRateDecimal)` is subtracted. -/
def amountAfterFee (amountIn feeRate : ℕ) : ℚ :=
  (amountIn : ℚ) - amountIn * feeRateDecimal feeRate

/-- part_000 line 467 / part_005 line 728: the input reserve after the swap,
`totalInTokenAmount + amountInAfterFee` — the divisor of the reserve division.
-/
def newInReserve (amountIn totalIn feeRate : ℕ) : ℚ :=
  (totalIn : ℚ) + amountAfterFee amountIn feeRate

/-- part_000 line 467 / part_005 lines 725-733: the exact-output decimal
`totalOut - (totalIn * totalOut).Div(newInReserve)` (both files compute it with
the same decimal operations). -/
def outDec (amountIn totalIn totalOut feeRate : ℕ) : ℚ :=
  (totalOut : ℚ) -
    divRound16 ((totalIn : ℚ) * totalOut) (newInReserve amountIn totalIn feeRate)

/-- part_000 line 470: `outDecimal.Mul(AllBpDecimal.Sub(slip).Div(AllBpDecimal))`. -/
def minOutDec (slipPageBP amountIn totalIn totalOut feeRate : ℕ) : ℚ :=
  outDec amountIn totalIn totalOut feeRate *
    divRound16 (AllBpDecimal - slipPageBP) AllBpDecimal

/-- part_000 lines 453-475, `CalcMinAmountOutBySwap`: returns
`(uint64(minOut.IntPart()), uint64(outDecimal.IntPart()), nil)`, or `(0,0,nil)`
when either decimal is not positive; the reserve division panics when its
divisor is zero. -/
def CalcMinAmountOutBySwap (slipPageBP amountIn totalIn totalOut feeRate : ℕ) :
    CalcResult :=
  if newInReserve amountIn totalIn feeRate = 0 then .divByZero
  else if ¬ 0 < minOutDec slipPageBP amountIn totalIn totalOut feeRate ∨
      ¬ 0 < outDec amountIn totalIn totalOut feeRate then .ok 0 0
  else .ok (intPartU (minOutDec slipPageBP amountIn totalIn totalOut feeRate))
    (intPartU (outDec amountIn totalIn totalOut feeRate))

/-- part_000 lines 446-451, `CalcMinAmountOutByAmm`: dispatches on the
direction, assigning the base (quote/SOL-side) reserve as input for a buy and
the token-side reserve as input for a sell. -/
def CalcMinAmountOutByAmm (slipPageBP amountIn : ℕ) (isBuy : Bool)
    (tokenAmount baseAmount feeRate : ℕ) : CalcResult :=
  if isBuy then CalcMinAmountOutBySwap slipPageBP amountIn baseAmount tokenAmount feeRate
  else CalcMinAmountOutBySwap slipPageBP amountIn tokenAmount baseAmount feeRate

/-- part_005 line 736: `amountOut.Mul(10000 - slip).Div(10000)` — unlike
part_000, the slippage division is applied after the multiplication. -/
def minOutDec5 (slippageBP amountIn inR outR feeRate : ℕ) : ℚ :=
  divRound16 (outDec amountIn inR outR feeRate * (AllBpDecimal - slippageBP))
    AllBpDecimal

/-- part_005 lines 702-742 after the `isBuy` role assignment: the
direction-free body of `CalculateMinAmountOut`, operating on an already chosen
(input reserve, output reserve) pair.  Returns an explicit error (with zero
amounts) when either computed decimal is `≤ 0`. -/
def calculateCore (slippageBP amountIn inR outR feeRate : ℕ) : CalcResult :=
  if newInReserve amountIn inR feeRate = 0 then .divByZero
  else if minOutDec5 slippageBP amountIn inR outR feeRate ≤ 0 ∨
      outDec amountIn inR outR feeRate ≤ 0 then .err 0 0
  else .ok (intPartU (minOutDec5 slippageBP amountIn inR outR feeRate))
    (intPartU (outDec amountIn inR outR feeRate))

/-- part_005 lines 701-743, `CalculateMinAmountOut`: assigns the reserve roles
from `isBuy` (buy: input = base, output = token; sell: swapped) and runs the
direction-free body. -/
def CalculateMinAmountOut (slippageBP amountIn : ℕ) (isBuy : Bool)
    (tokenAmount baseAmount feeRate : ℕ) : CalcResult :=
  calculateCore slippageBP amountIn
    (if isBuy then baseAmount else tokenAmount)
    (if isBuy then tokenAmount else baseAmount) feeRate

/-- part_000 lines 453-475 again, with the Go `uint64(IntPart())` conversion
of the returned decimals modelled in full (reduction modulo `2^64`): the
faithful model of `CalcMinAmountOutBySwap` also for outputs of `2^64` or
more, which are reachable when `feeRate > 10^6` drives the divisor negative.
-/
def CalcMinAmountOutBySwapU (slipPageBP amountIn totalIn totalOut feeRate : ℕ) :
    CalcResult :=
  if newInReserve amountIn totalIn feeRate = 0 then .divByZero
  else if ¬ 0 < minOutDec slipPageBP amountIn totalIn totalOut feeRate ∨
      ¬ 0 < outDec amountIn totalIn totalOut feeRate then .ok 0 0
  else .ok (intPartU64 (minOutDec slipPageBP amountIn totalIn totalOut feeRate))
    (intPartU64 (outDec amountIn totalIn totalOut feeRate))

/-- part_005 lines 702-742 again (the direction-free body), with the returned
integer parts reduced modulo `2^64` as the Go conversions do. -/
def calculateCoreU (slippageBP amountIn inR outR feeRate : ℕ) : CalcResult :=
  if newInReserve amountIn inR feeRate = 0 then .divByZero
  else if minOutDec5 slippageBP amountIn inR outR feeRate ≤ 0 ∨
      outDec amountIn inR outR feeRate ≤ 0 then .err 0 0
  else .ok (intPartU64 (minOutDec5 slippageBP amountIn inR outR feeRate))
    (intPartU64 (outDec amountIn inR outR feeRate))

/-- part_005 lines 701-743 again, `CalculateMinAmountOut` with the modulo
`2^64` reduction of the returned integer parts modelled. -/
def CalculateMinAmountOutU (slippageBP amountIn : ℕ) (isBuy : Bool)
    (tokenAmount baseAmount feeRate : ℕ) : CalcResult :=
  calculateCoreU slippageBP amountIn
    (if isBuy then baseAmount else tokenAmount)
    (if isBuy then tokenAmount else baseAmount) feeRate

/-- Go binary.LittleEndian.Uint64: little-endian interpretation of 8 bytes. -/
def leU64 (bs : List ℕ) : ℕ := bs.foldr (fun b acc => b + 256 * acc) 0

/-- part_001 line 48: the 8-byte Buy instruction discriminator. -/
def BuyDiscriminator : List ℕ := [102, 6, 61, 18, 1, 218, 235, 234]

/-- part_001 line 49: the 8-byte Sell instruction discriminator. -/
def SellDiscriminator : List ℕ := [143, 244, 89, 80, 224, 16, 16, 88]

/-- part_001 line 50: the 8-byte CreatePool instruction discriminator. -/
def CreatePoolDiscriminator : List ℕ := [175, 175, 109, 31, 13, 152, 155, 9]

/-- Classification outcomes of the instruction-analysis code in part_001. -/
inductive InstrKind where
  | tooShort : InstrKind
  | buy : InstrKind
  | sell : InstrKind
  | createPool : InstrKind
  | unknown : InstrKind
deriving DecidableEq, Repr

/-- Outcome of classifying one instruction payload: the recognised kind, the
two decoded u64 parameters when present, and the raw discriminator bytes kept
for diagnostic printing (empty when the payload is too short to contain one).
-/
structure Classification where
  kind : InstrKind
  params : Option (ℕ × ℕ)
  rawDisc : List ℕ
deriving DecidableEq, Repr

/-- part_001 lines 437-493, the instruction-classification logic of
`analyzeTransactionWithRPC`: payloads shorter than 8 bytes are reported too
short; otherwise the first 8 bytes are compared against the Buy, Sell and
CreatePool discriminators in that order; Buy and Sell payloads of at least 24
bytes additionally decode two little-endian u64 parameters from bytes
`[8:16)` and `[16:24)`; an unmatched discriminator is reported as unknown. -/
def classify (payload : List ℕ) : Classification :=
  if payload.length < 8 then ⟨.tooShort, none, []⟩
  else if payload.take 8 = BuyDiscriminator then
    if 24 ≤ payload.length then
      ⟨.buy, some (leU64 ((payload.drop 8).take 8), leU64 ((payload.drop 16).take 8)),
        payload.take 8⟩
    else ⟨.buy, none, payload.take 8⟩
  else if payload.take 8 = SellDiscriminator then
    if 24 ≤ payload.length then
      ⟨.sell, some (leU64 ((payload.drop 8).take 8), leU64 ((payload.drop 16).take 8)),
        payload.take 8⟩
    else ⟨.sell, none, payload.take 8⟩
  else if payload.take 8 = CreatePoolDiscriminator then ⟨.createPool, none, payload.take 8⟩
  else ⟨.unknown, none, payload.take 8⟩

/-- Little-endian 8-byte encoding of a 64-bit value, used to build the
synthetic payloads of the round-trip property. -/
def le64 (n : ℕ) : List ℕ :=
  [n % 256, n / 256 % 256, n / 65536 % 256, n / 16777216 % 256,
   n / 4294967296 % 256, n / 1099511627776 % 256,
   n / 281474976710656 % 256, n / 72057594037927936 % 256]

/-!
Specification-side definitions.  These follow the formula chain of the spec
(§4.1, steps 1-6) and exist to be compared with the embedded code: `specNet`,
`specExactOut`, `specMinOut` and `specMinOut5` state the amended formulas in
which the reserve division (and, for `CalculateMinAmountOut`, the final
division by 10000) is rounded to 16 decimal places, while `exactArithOut`
states the original claim: the fully exact rational formula.
-/

/-- Spec step 1-2: `amountInNet = amountIn - amountIn * feeRate / 1000000`,
with the fee taken in exact rational arithmetic. -/
def specNet (amountIn feeRate : ℕ) : ℚ :=
  (amountIn : ℚ) - amountIn * feeRate / 1000000

/-- Spec steps 3-5 amended: `outputReserve - k / (inputReserve + amountInNet)`
with the division rounded to 16 decimal places, half away from zero. -/
def specExactOut (amountIn inR outR feeRate : ℕ) : ℚ :=
  (outR : ℚ) - divRound16 ((inR : ℚ) * outR) ((inR : ℚ) + specNet amountIn feeRate)

/-- Spec step 6 for `CalcMinAmountOutBySwap`:
`exactAmountOut * (10000 - slippageBasisPoints) / 10000`, exact. -/
def specMinOut (slip amountIn inR outR feeRate : ℕ) : ℚ :=
  specExactOut amountIn inR outR feeRate * ((10000 : ℚ) - slip) / 10000

/-- Spec step 6 for `CalculateMinAmountOut`: the same quantity, with the final
division by 10000 rounded to 16 decimal places. -/
def specMinOut5 (slip amountIn inR outR feeRate : ℕ) : ℚ :=
  divRound16 (specExactOut amountIn inR outR feeRate * ((10000 : ℚ) - slip)) 10000

/-- Original claim C1 formula, fully exact rational arithmetic:
`outputReserve - k / (inputReserve + amountInNet)` with an exact division. -/
def exactArithOut (amountIn inR outR feeRate : ℕ) : ℚ :=
  (outR : ℚ) - ((inR : ℚ) * outR) / ((inR : ℚ) + specNet amountIn feeRate)

/-- Minimum-output component of a quote result (0 on a modelled panic; the Go
code returns 0 in both the ok-zero and the error branch). -/
def retMin : CalcResult → ℕ
  | .divByZero => 0
  | .ok m _ => m
  | .err m _ => m

/-- Exact-output component of a quote result. -/
def retExact : CalcResult → ℕ
  | .divByZero => 0
  | .ok _ e => e
  | .err _ e => e

/-! Lemmas about the rounding primitives. -/

lemma rndAway_intCast (z : ℤ) : rndAway (z : ℚ) = z := by
  unfold rndAway
  split_ifs with h
  · rw [add_comm, Int.floor_add_int]
    norm_num
  · push_neg at h
    rw [show -(z : ℚ) = ((-z : ℤ) : ℚ) by push_cast; ring, add_comm, Int.floor_add_int]
    norm_num

lemma rndAway_mono {x y : ℚ} (h : x ≤ y) : rndAway x ≤ rndAway y := by
  unfold rndAway
  split_ifs with hx hy hy
  · exact Int.floor_le_floor (by linarith)
  · exact absurd (le_trans hx h) hy
  · push_neg at hx
    have h1 : (0 : ℤ) ≤ ⌊-x + 1/2⌋ := Int.le_floor.mpr (by push_cast; linarith)
    have h2 : (0 : ℤ) ≤ ⌊y + 1/2⌋ := Int.le_floor.mpr (by push_cast; linarith)
    omega
  · simp only [neg_le_neg_iff]
    exact Int.floor_le_floor (by linarith)

lemma abs_rndAway_sub (x : ℚ) : |(rndAway x : ℚ) - x| ≤ 1/2 := by
  unfold rndAway
  split_ifs with h
  · have h1 := Int.floor_le (x + 1/2)
    have h2 := Int.lt_floor_add_one (x + 1/2)
    rw [abs_le]
    constructor <;> linarith
  · have h1 := Int.floor_le (-x + 1/2)
    have h2 := Int.lt_floor_add_one (-x + 1/2)
    rw [abs_le]
    constructor <;> push_cast <;> linarith

lemma abs_divRound16_sub (a b : ℚ) : |divRound16 a b - a / b| ≤ 1 / (2 * 10 ^ 16) := by
  have h := abs_rndAway_sub (a / b * 10 ^ 16)
  rw [abs_le] at h ⊢
  unfold divRound16
  constructor <;> [linarith [h.1]; linarith [h.2]]

lemma divRound16_exact {a b : ℚ} (z : ℤ) (h : a / b * 10 ^ 16 = z) :
    divRound16 a b = a / b := by
  unfold divRound16
  rw [h, rndAway_intCast, ← h, mul_div_cancel_right₀ _ (by norm_num : (10:ℚ) ^ 16 ≠ 0)]

lemma divRound16_natCast_million (f : ℕ) :
    divRound16 (f : ℚ) 1000000 = (f : ℚ) / 1000000 := by
  apply divRound16_exact ((f : ℤ) * 10 ^ 10)
  push_cast
  ring

lemma divRound16_bp (s : ℕ) :
    divRound16 (AllBpDecimal - s) AllBpDecimal = ((10000 : ℚ) - s) / 10000 := by
  unfold AllBpDecimal
  apply divRound16_exact ((10000 - (s : ℤ)) * 10 ^ 12)
  push_cast
  ring

lemma rndAway_zero : rndAway 0 = 0 := by
  unfold rndAway
  rw [if_pos le_rfl, zero_add]
  exact Int.floor_eq_zero_iff.mpr (by constructor <;> norm_num)

lemma divRound16_zero_num (b : ℚ) : divRound16 0 b = 0 := by
  unfold divRound16
  rw [zero_div, zero_mul, rndAway_zero]
  norm_num

lemma divRound16_mono_num {a a' b : ℚ} (hb : 0 < b) (h : a ≤ a') :
    divRound16 a b ≤ divRound16 a' b := by
  unfold divRound16
  have h1 : a / b * 10 ^ 16 ≤ a' / b * 10 ^ 16 := by
    apply mul_le_mul_of_nonneg_right _ (by norm_num)
    exact (div_le_div_iff_of_pos_right hb).mpr h
  have h2 : ((rndAway (a / b * 10 ^ 16) : ℤ) : ℚ) ≤ ((rndAway (a' / b * 10 ^ 16) : ℤ) : ℚ) :=
    Int.cast_le.mpr (rndAway_mono h1)
  linarith

lemma intPartU_mono {p q : ℚ} (h : p ≤ q) : intPartU p ≤ intPartU q :=
  Int.toNat_le_toNat (Int.floor_le_floor h)

lemma intPartU_cast {q : ℚ} (h : 0 ≤ q) : ((intPartU q : ℕ) : ℚ) = (⌊q⌋ : ℚ) := by
  unfold intPartU
  have h0 : (0 : ℤ) ≤ ⌊q⌋ := Int.le_floor.mpr (by exact_mod_cast h)
  rw [show ((⌊q⌋.toNat : ℕ) : ℚ) = ((⌊q⌋.toNat : ℤ) : ℚ) by push_cast; ring,
    Int.toNat_of_nonneg h0]

lemma divRound16_nonneg {a b : ℚ} (ha : 0 ≤ a) (hb : 0 ≤ b) :
    0 ≤ divRound16 a b := by
  unfold divRound16
  have h1 : 0 ≤ a / b := div_nonneg ha hb
  have h2 : (0 : ℤ) ≤ rndAway (a / b * 10 ^ 16) := by
    unfold rndAway
    rw [if_pos (mul_nonneg h1 (by norm_num))]
    exact Int.le_floor.mpr (by push_cast; linarith [mul_nonneg h1 (by norm_num : (0:ℚ) ≤ 10 ^ 16)])
  exact div_nonneg (by exact_mod_cast h2) (by norm_num)

lemma intPartU64_mono_of_lt {p q : ℚ} (hpq : p ≤ q) (hq : ⌊q⌋ < 2 ^ 64) :
    intPartU64 p ≤ intPartU64 q := by
  unfold intPartU64
  have h1 : ⌊p⌋ ≤ ⌊q⌋ := Int.floor_le_floor hpq
  have h2 : ⌊p⌋.toNat ≤ ⌊q⌋.toNat := Int.toNat_le_toNat h1
  have h3 : ⌊q⌋.toNat < 2 ^ 64 := by omega
  rw [Nat.mod_eq_of_lt h3, Nat.mod_eq_of_lt (lt_of_le_of_lt h2 h3)]
  exact h2

/-! Bridging lemmas between the embedded decimal code and the spec formulas. -/

lemma amountAfterFee_eq (a f : ℕ) : amountAfterFee a f = specNet a f := by
  unfold amountAfterFee feeRateDecimal FeeRateDenominatorValue specNet
  rw [divRound16_natCast_million]
  ring

lemma newInReserve_eq (a ti f : ℕ) : newInReserve a ti f = (ti : ℚ) + specNet a f := by
  unfold newInReserve
  rw [amountAfterFee_eq]

lemma outDec_eq_spec (a ti tout f : ℕ) : outDec a ti tout f = specExactOut a ti tout f := by
  unfold outDec specExactOut
  rw [newInReserve_eq]

lemma minOutDec_eq_spec (s a ti tout f : ℕ) :
    minOutDec s a ti tout f = specMinOut s a ti tout f := by
  unfold minOutDec specMinOut
  rw [divRound16_bp, outDec_eq_spec, mul_div_assoc]

lemma minOutDec5_eq_spec (s a ti tout f : ℕ) :
    minOutDec5 s a ti tout f = specMinOut5 s a ti tout f := by
  unfold minOutDec5 specMinOut5 AllBpDecimal
  rw [outDec_eq_spec]

lemma outDec_mul_int (a ti tout f : ℕ) :
    ∃ z : ℤ, outDec a ti tout f * 10 ^ 16 = (z : ℚ) := by
  refine ⟨(tout : ℤ) * 10 ^ 16 -
    rndAway ((ti : ℚ) * tout / newInReserve a ti f * 10 ^ 16), ?_⟩
  unfold outDec divRound16
  push_cast
  ring

lemma minOutDec_zero (a ti tout f : ℕ) : minOutDec 0 a ti tout f = outDec a ti tout f := by
  unfold minOutDec
  rw [divRound16_bp]
  norm_num

lemma minOutDec5_zero (a ti tout f : ℕ) : minOutDec5 0 a ti tout f = outDec a ti tout f := by
  obtain ⟨z, hz⟩ := outDec_mul_int a ti tout f
  unfold minOutDec5 AllBpDecimal
  rw [show ((10000 : ℚ) - ((0 : ℕ) : ℚ)) = 10000 by norm_num]
  have hcancel : outDec a ti tout f * 10000 / 10000 = outDec a ti tout f :=
    mul_div_cancel_right₀ _ (by norm_num)
  rw [divRound16_exact z (by rw [hcancel]; exact hz), hcancel]

lemma specNet_nonneg {a f : ℕ} (hf : f ≤ 1000000) : 0 ≤ specNet a f := by
  unfold specNet
  have hf2 : (f : ℚ) ≤ 1000000 := by exact_mod_cast hf
  have h1 : (a : ℚ) * f / 1000000 ≤ a := by
    rw [div_le_iff₀ (by norm_num : (0 : ℚ) < 1000000)]
    exact mul_le_mul_of_nonneg_left hf2 (Nat.cast_nonneg a)
  linarith

lemma minOutDec_anti {s1 s2 : ℕ} (h : s1 ≤ s2) (a ti tout f : ℕ)
    (hout : 0 ≤ outDec a ti tout f) :
    minOutDec s2 a ti tout f ≤ minOutDec s1 a ti tout f := by
  unfold minOutDec
  rw [divRound16_bp, divRound16_bp]
  apply mul_le_mul_of_nonneg_left _ hout
  have hs : (s1 : ℚ) ≤ s2 := Nat.cast_le.mpr h
  linarith

lemma minOutDec5_anti {s1 s2 : ℕ} (h : s1 ≤ s2) (a ti tout f : ℕ)
    (hout : 0 ≤ outDec a ti tout f) :
    minOutDec5 s2 a ti tout f ≤ minOutDec5 s1 a ti tout f := by
  unfold minOutDec5 AllBpDecimal
  apply divRound16_mono_num (by norm_num)
  apply mul_le_mul_of_nonneg_left _ hout
  have hs : (s1 : ℚ) ≤ s2 := Nat.cast_le.mpr h
  linarith

/-! Claim theorems for the quote engine. -/

/-- C4: direction handling is a pure relabeling of reserve roles: a Buy quote
is the direction-free swap computation with the quote/SOL-side (base) reserve
as input and the token-side reserve as output, a Sell quote the same
computation with the roles swapped, in both `CalcMinAmountOutByAmm` (which
dispatches to `CalcMinAmountOutBySwap`) and `CalculateMinAmountOut` (whose
`isBuy` branch assigns the roles the same way); consequently swapping the
direction together with the raw reserve pair leaves the quote unchanged. -/
theorem c4_direction_relabeling (slip aIn token base fee : ℕ) :
    CalcMinAmountOutByAmm slip aIn true token base fee
        = CalcMinAmountOutBySwap slip aIn base token fee ∧
    CalcMinAmountOutByAmm slip aIn false token base fee
        = CalcMinAmountOutBySwap slip aIn token base fee ∧
    CalculateMinAmountOut slip aIn true token base fee
        = calculateCore slip aIn base token fee ∧
    CalculateMinAmountOut slip aIn false token base fee
        = calculateCore slip aIn token base fee ∧
    CalcMinAmountOutByAmm slip aIn true token base fee
        = CalcMinAmountOutByAmm slip aIn false base token fee ∧
    CalculateMinAmountOut slip aIn true token base fee
        = CalculateMinAmountOut slip aIn false base token fee := by
  refine ⟨rfl, rfl, rfl, rfl, ?_, ?_⟩
  · simp [CalcMinAmountOutByAmm]
  · simp [CalculateMinAmountOut]

/-- C10: the quote computation is not total on non-negative inputs: with
`inputReserve = 0` and `amountIn = 0` the divisor `inputReserve + amountInNet`
is zero and both implementations reach the decimal division by zero (a panic
in the Go library) with no guard or error return. -/
theorem c10_division_by_zero_reachable :
    CalcMinAmountOutBySwap 0 0 0 5000000 2500 = .divByZero ∧
    CalculateMinAmountOut 0 0 true 5000000 0 2500 = .divByZero := by
  refine ⟨?_, ?_⟩
  · norm_num [CalcMinAmountOutBySwap, newInReserve,
      amountAfterFee, feeRateDecimal, FeeRateDenominatorValue, divRound16, rndAway]
  · norm_num [CalculateMinAmountOut, calculateCore, newInReserve,
      amountAfterFee, feeRateDecimal, FeeRateDenominatorValue, divRound16, rndAway]

/-- C2 counterexample: at the claimed scenario the code returns
`minAmountOut = 448977` and `exactAmountOut = 453512`, and the true quotient
`5×10^12 / 1099750` is about `4546487.84`, so the values `≈ 4546260`,
`≈ 453740` and `≈ 449202` asserted by the claim are wrong (they are off by
hundreds of units, far beyond any truncation ambiguity). -/
theorem c2_counterexample :
    CalcMinAmountOutBySwap 100 100000 1000000 5000000 2500 = .ok 448977 453512 ∧
    CalculateMinAmountOut 100 100000 true 5000000 1000000 2500 = .ok 448977 453512 ∧
    ⌊(5000000000000 : ℚ) / 1099750⌋ = 4546487 ∧
    ¬ (453740 - 1 ≤ 453512) ∧ ¬ (449202 - 1 ≤ 448977) := by
  refine ⟨?_, ?_, by norm_num, by norm_num, by norm_num⟩
  · norm_num [CalcMinAmountOutBySwap, newInReserve, amountAfterFee, feeRateDecimal,
      FeeRateDenominatorValue, minOutDec, outDec, AllBpDecimal, divRound16, rndAway, intPartU]
    exact ⟨rfl, rfl⟩
  · norm_num [CalculateMinAmountOut, calculateCore, newInReserve, amountAfterFee,
      feeRateDecimal, FeeRateDenominatorValue, minOutDec5, outDec, AllBpDecimal, divRound16,
      rndAway, intPartU]
    exact ⟨rfl, rfl⟩

/-- C2 (amended): for the concrete scenario the quote computes `fee = 250`,
`amountInNet = 99750`, `k = 5×10^12`, `newOutputReserve =
5×10^12 / 1099750 ≈ 4546487.84` (integer part `4546487`), and both
implementations return `exactAmountOut = 453512` and `minAmountOut = 448977`.
-/
theorem c2_concrete_scenario :
    (100000 : ℚ) * 2500 / 1000000 = 250 ∧
    specNet 100000 2500 = 99750 ∧
    newInReserve 100000 1000000 2500 = 1099750 ∧
    (1000000 : ℚ) * 5000000 = 5 * 10 ^ 12 ∧
    ⌊(5 * 10 ^ 12 : ℚ) / 1099750⌋ = 4546487 ∧
    CalcMinAmountOutBySwap 100 100000 1000000 5000000 2500 = .ok 448977 453512 ∧
    CalculateMinAmountOut 100 100000 true 5000000 1000000 2500 = .ok 448977 453512 := by
  refine ⟨by norm_num, by norm_num [specNet], ?_, by norm_num, by norm_num, ?_, ?_⟩
  · norm_num [newInReserve, amountAfterFee, feeRateDecimal, FeeRateDenominatorValue,
      divRound16, rndAway]
  · norm_num [CalcMinAmountOutBySwap, newInReserve, amountAfterFee, feeRateDecimal,
      FeeRateDenominatorValue, minOutDec, outDec, AllBpDecimal, divRound16, rndAway, intPartU]
    exact ⟨rfl, rfl⟩
  · norm_num [CalculateMinAmountOut, calculateCore, newInReserve, amountAfterFee,
      feeRateDecimal, FeeRateDenominatorValue, minOutDec5, outDec, AllBpDecimal, divRound16,
      rndAway, intPartU]
    exact ⟨rfl, rfl⟩

/-- C1 (amended): for every input on which the computation succeeds, the quote
returns exactly the spec formula chain `fee = amountIn*feeRate/1000000`,
`amountInNet = amountIn - fee`, `k = inputReserve*outputReserve`,
`exactAmountOut = outputReserve - k/(inputReserve + amountInNet)`,
`minAmountOut = exactAmountOut*(10000 - slippage)/10000` — with two
amendments: the reserve division (and, in `CalculateMinAmountOut`, the final
division by 10000) is rounded to 16 decimal places, half away from zero, as
the shopspring decimal library does, rather than computed exactly; and each
returned value is the integer part reduced modulo `2^64`, because the Go
`int64`/`uint64` conversions of `IntPart` keep only the low 64 bits (for
`feeRate > 10^6` the divisor goes negative and the integer parts can reach
`2^64`).  Stated over the fully faithful wrapped models. -/
theorem c1_quote_formula (slip aIn tin tout fee : ℕ)
    (hD : (tin : ℚ) + specNet aIn fee ≠ 0) :
    (CalcMinAmountOutBySwapU slip aIn tin tout fee =
      if specMinOut slip aIn tin tout fee ≤ 0 ∨ specExactOut aIn tin tout fee ≤ 0
      then .ok 0 0
      else .ok (intPartU64 (specMinOut slip aIn tin tout fee))
        (intPartU64 (specExactOut aIn tin tout fee))) ∧
    (CalculateMinAmountOutU slip aIn true tout tin fee =
      if specMinOut5 slip aIn tin tout fee ≤ 0 ∨ specExactOut aIn tin tout fee ≤ 0
      then .err 0 0
      else .ok (intPartU64 (specMinOut5 slip aIn tin tout fee))
        (intPartU64 (specExactOut aIn tin tout fee))) := by
  have hD2 : ¬ newInReserve aIn tin fee = 0 := by
    rw [newInReserve_eq]
    exact hD
  constructor
  · unfold CalcMinAmountOutBySwapU
    rw [if_neg hD2, minOutDec_eq_spec, outDec_eq_spec]
    simp only [not_lt]
  · show calculateCoreU slip aIn tin tout fee = _
    unfold calculateCoreU
    rw [if_neg hD2, minOutDec5_eq_spec, outDec_eq_spec]

/-- C1 witness: the formula theorem applied at the concrete scenario of C2. -/
theorem c1_quote_formula_witness :
    ((1000000 : ℚ) + specNet 100000 2500 ≠ 0) ∧
    ((CalcMinAmountOutBySwapU 100 100000 1000000 5000000 2500 =
      if specMinOut 100 100000 1000000 5000000 2500 ≤ 0 ∨
          specExactOut 100000 1000000 5000000 2500 ≤ 0
      then .ok 0 0
      else .ok (intPartU64 (specMinOut 100 100000 1000000 5000000 2500))
        (intPartU64 (specExactOut 100000 1000000 5000000 2500))) ∧
     (CalculateMinAmountOutU 100 100000 true 5000000 1000000 2500 =
      if specMinOut5 100 100000 1000000 5000000 2500 ≤ 0 ∨
          specExactOut 100000 1000000 5000000 2500 ≤ 0
      then .err 0 0
      else .ok (intPartU64 (specMinOut5 100 100000 1000000 5000000 2500))
        (intPartU64 (specExactOut 100000 1000000 5000000 2500)))) :=
  ⟨by norm_num [specNet], c1_quote_formula 100 100000 1000000 5000000 2500
    (by norm_num [specNet])⟩

/-- C1 counterexample to the original exact-arithmetic claim: at
`slippage = 0`, `amountIn = 1`, reserves `10^17` and `10^17`, `feeRate = 0`,
the code returns `exactAmountOut = minAmountOut = 1`, but the exact rational
formula gives `1 - 1/(10^17 + 1)`, whose integer part is `0` (for both the
exact and the minimum output), because the 16-decimal-digit division rounds
the quotient `k/(inputReserve + amountInNet)` down to an integer.  The last
two conjuncts force the modulo amendment: at `amountIn = 1`, reserves
`10^10`/`10^10`, `feeRate = 10^16 + 1500000` the output decimal is
`2*10^20 + 10^10` and the code returns it reduced modulo `2^64`
(`15532559272904483840`), not its integer part. -/
theorem c1_exact_arithmetic_counterexample :
    CalcMinAmountOutBySwapU 0 1 (10 ^ 17) (10 ^ 17) 0 = .ok 1 1 ∧
    ⌊exactArithOut 1 (10 ^ 17) (10 ^ 17) 0⌋ = 0 ∧
    ⌊exactArithOut 1 (10 ^ 17) (10 ^ 17) 0 * ((10000 : ℚ) - 0) / 10000⌋ = 0 ∧
    CalcMinAmountOutBySwapU 0 1 (10 ^ 10) (10 ^ 10) (10 ^ 16 + 1500000)
      = .ok 15532559272904483840 15532559272904483840 ∧
    ⌊outDec 1 (10 ^ 10) (10 ^ 10) (10 ^ 16 + 1500000)⌋ = 200000000010000000000 := by
  refine ⟨?_, ?_, ?_, ?_, ?_⟩
  · norm_num [CalcMinAmountOutBySwapU, newInReserve, amountAfterFee, feeRateDecimal,
      FeeRateDenominatorValue, minOutDec, outDec, AllBpDecimal, divRound16, rndAway,
      intPartU64]
  · norm_num [exactArithOut, specNet]
  · norm_num [exactArithOut, specNet]
  · norm_num [CalcMinAmountOutBySwapU, newInReserve, amountAfterFee, feeRateDecimal,
      FeeRateDenominatorValue, minOutDec, outDec, AllBpDecimal, divRound16, rndAway,
      intPartU64]
    rfl
  · norm_num [outDec, newInReserve, amountAfterFee, feeRateDecimal,
      FeeRateDenominatorValue, divRound16, rndAway]

/-- C3: whenever the computed decimals make the exact or minimum output
non-positive (and the divisor is non-zero so the computation succeeds),
`CalcMinAmountOutBySwap` returns `(0, 0)` with a nil error while
`CalculateMinAmountOut` returns `(0, 0)` with a non-nil error, for either
direction; no partial amounts are returned. -/
theorem c3_nonpositive_zero_output (slip aIn tin tout fee : ℕ)
    (hD : ¬ newInReserve aIn tin fee = 0) :
    ((minOutDec slip aIn tin tout fee ≤ 0 ∨ outDec aIn tin tout fee ≤ 0) →
      CalcMinAmountOutBySwap slip aIn tin tout fee = .ok 0 0) ∧
    ((minOutDec5 slip aIn tin tout fee ≤ 0 ∨ outDec aIn tin tout fee ≤ 0) →
      CalculateMinAmountOut slip aIn true tout tin fee = .err 0 0 ∧
      CalculateMinAmountOut slip aIn false tin tout fee = .err 0 0) := by
  constructor
  · intro h
    unfold CalcMinAmountOutBySwap
    rw [if_neg hD, if_pos (by rw [not_lt, not_lt]; exact h)]
  · intro h
    have hcore : calculateCore slip aIn tin tout fee = .err 0 0 := by
      unfold calculateCore
      rw [if_neg hD, if_pos h]
    exact ⟨hcore, hcore⟩

/-- C3 witness: at full slippage (10000 basis points) the minimum output is
zero, so the guard fires in both implementations. -/
theorem c3_witness :
    ¬ newInReserve 1 1 0 = 0 ∧
    (minOutDec 10000 1 1 1 0 ≤ 0 ∨ outDec 1 1 1 0 ≤ 0) ∧
    (minOutDec5 10000 1 1 1 0 ≤ 0 ∨ outDec 1 1 1 0 ≤ 0) ∧
    CalcMinAmountOutBySwap 10000 1 1 1 0 = .ok 0 0 ∧
    (CalculateMinAmountOut 10000 1 true 1 1 0 = .err 0 0 ∧
      CalculateMinAmountOut 10000 1 false 1 1 0 = .err 0 0) := by
  have hD : ¬ newInReserve 1 1 0 = 0 := by
    norm_num [newInReserve, amountAfterFee, feeRateDecimal, FeeRateDenominatorValue,
      divRound16, rndAway]
  have h0 : minOutDec 10000 1 1 1 0 ≤ 0 ∨ outDec 1 1 1 0 ≤ 0 := by
    left
    norm_num [minOutDec, outDec, newInReserve, amountAfterFee, feeRateDecimal,
      FeeRateDenominatorValue, AllBpDecimal, divRound16, rndAway]
  have h5 : minOutDec5 10000 1 1 1 0 ≤ 0 ∨ outDec 1 1 1 0 ≤ 0 := by
    left
    norm_num [minOutDec5, outDec, newInReserve, amountAfterFee, feeRateDecimal,
      FeeRateDenominatorValue, AllBpDecimal, divRound16, rndAway]
  exact ⟨hD, h0, h5, (c3_nonpositive_zero_output 10000 1 1 1 0 hD).1 h0,
    (c3_nonpositive_zero_output 10000 1 1 1 0 hD).2 h5⟩

/-- C5 counterexample to the for-every-fee-rate monotonicity: at reserves
`10^10`/`10^10`, `amountIn = 1`, `feeRate = 10^16 + 1500000` the output
decimal is `2*10^20 + 10^10`, the returned minimum is its slippage-scaled
floor reduced modulo `2^64`, and it increases from `12559272128483840` at
slippage 776 to `18439303345837035456` at slippage 777, in both
implementations. -/
theorem c5_counterexample :
    CalcMinAmountOutBySwapU 776 1 (10 ^ 10) (10 ^ 10) (10 ^ 16 + 1500000)
      = .ok 12559272128483840 15532559272904483840 ∧
    CalcMinAmountOutBySwapU 777 1 (10 ^ 10) (10 ^ 10) (10 ^ 16 + 1500000)
      = .ok 18439303345837035456 15532559272904483840 ∧
    CalculateMinAmountOutU 776 1 true (10 ^ 10) (10 ^ 10) (10 ^ 16 + 1500000)
      = .ok 12559272128483840 15532559272904483840 ∧
    CalculateMinAmountOutU 777 1 true (10 ^ 10) (10 ^ 10) (10 ^ 16 + 1500000)
      = .ok 18439303345837035456 15532559272904483840 ∧
    776 ≤ 777 ∧ ¬ (18439303345837035456 ≤ 12559272128483840) := by
  refine ⟨?_, ?_, ?_, ?_, by norm_num, by norm_num⟩
  · norm_num [CalcMinAmountOutBySwapU, newInReserve, amountAfterFee, feeRateDecimal,
      FeeRateDenominatorValue, minOutDec, outDec, AllBpDecimal, divRound16, rndAway,
      intPartU64]
    exact ⟨rfl, rfl⟩
  · norm_num [CalcMinAmountOutBySwapU, newInReserve, amountAfterFee, feeRateDecimal,
      FeeRateDenominatorValue, minOutDec, outDec, AllBpDecimal, divRound16, rndAway,
      intPartU64]
    exact ⟨rfl, rfl⟩
  · norm_num [CalculateMinAmountOutU, calculateCoreU, newInReserve, amountAfterFee,
      feeRateDecimal, FeeRateDenominatorValue, minOutDec5, outDec, AllBpDecimal,
      divRound16, rndAway, intPartU64]
    exact ⟨rfl, rfl⟩
  · norm_num [CalculateMinAmountOutU, calculateCoreU, newInReserve, amountAfterFee,
      feeRateDecimal, FeeRateDenominatorValue, minOutDec5, outDec, AllBpDecimal,
      divRound16, rndAway, intPartU64]
    exact ⟨rfl, rfl⟩

/-- C5 (amended): for a fee rate numerator at most the denominator 1,000,000
(so the net input amount and the divisor stay non-negative) and an output
reserve in the uint64 range (so no returned value wraps modulo `2^64`), the
returned minimum output is non-increasing as the slippage (in basis points)
increases; at zero slippage the returned minimum output equals the returned
exact output (an equality that holds for every fee rate, wrap included), in
both implementations.  Stated over the fully faithful wrapped models. -/
theorem c5_slippage_monotone (aIn tin tout fee s1 s2 : ℕ) (h12 : s1 ≤ s2)
    (hfee : fee ≤ 1000000) (htout : tout < 2 ^ 64) :
    retMin (CalcMinAmountOutBySwapU s2 aIn tin tout fee)
        ≤ retMin (CalcMinAmountOutBySwapU s1 aIn tin tout fee) ∧
    retMin (CalculateMinAmountOutU s2 aIn true tout tin fee)
        ≤ retMin (CalculateMinAmountOutU s1 aIn true tout tin fee) ∧
    retMin (CalcMinAmountOutBySwapU 0 aIn tin tout fee)
        = retExact (CalcMinAmountOutBySwapU 0 aIn tin tout fee) ∧
    retMin (CalculateMinAmountOutU 0 aIn true tout tin fee)
        = retExact (CalculateMinAmountOutU 0 aIn true tout tin fee) := by
  refine ⟨?_, ?_, ?_, ?_⟩
  · unfold CalcMinAmountOutBySwapU
    by_cases hD : newInReserve aIn tin fee = 0
    · rw [if_pos hD, if_pos hD]
    rw [if_neg hD, if_neg hD]
    by_cases g2 : ¬ 0 < minOutDec s2 aIn tin tout fee ∨ ¬ 0 < outDec aIn tin tout fee
    · rw [if_pos g2]
      exact Nat.zero_le _
    push_neg at g2
    obtain ⟨hm2, hout⟩ := g2
    have hanti := minOutDec_anti h12 aIn tin tout fee hout.le
    have g2n : ¬ (¬ 0 < minOutDec s2 aIn tin tout fee ∨ ¬ 0 < outDec aIn tin tout fee) := by
      push_neg
      exact ⟨hm2, hout⟩
    have g1n : ¬ (¬ 0 < minOutDec s1 aIn tin tout fee ∨ ¬ 0 < outDec aIn tin tout fee) := by
      push_neg
      exact ⟨lt_of_lt_of_le hm2 hanti, hout⟩
    rw [if_neg g2n, if_neg g1n]
    have hDpos : 0 < newInReserve aIn tin fee := by
      have h0 : 0 ≤ newInReserve aIn tin fee := by
        rw [newInReserve_eq]
        exact add_nonneg (Nat.cast_nonneg tin) (specNet_nonneg hfee)
      exact h0.lt_of_ne (Ne.symm hD)
    have hqr : 0 ≤ divRound16 ((tin : ℚ) * tout) (newInReserve aIn tin fee) :=
      divRound16_nonneg (mul_nonneg (Nat.cast_nonneg tin) (Nat.cast_nonneg tout)) hDpos.le
    have hout_le : outDec aIn tin tout fee ≤ (tout : ℚ) := by
      unfold outDec
      linarith
    have hmin1_le : minOutDec s1 aIn tin tout fee ≤ outDec aIn tin tout fee := by
      have h := minOutDec_anti (Nat.zero_le s1) aIn tin tout fee hout.le
      rwa [minOutDec_zero] at h
    have hfloor : ⌊minOutDec s1 aIn tin tout fee⌋ < 2 ^ 64 := by
      have h1 : ⌊minOutDec s1 aIn tin tout fee⌋ ≤ ⌊(tout : ℚ)⌋ :=
        Int.floor_le_floor (le_trans hmin1_le hout_le)
      rw [Int.floor_natCast] at h1
      have h2 : (tout : ℤ) < 2 ^ 64 := by exact_mod_cast htout
      omega
    exact intPartU64_mono_of_lt hanti hfloor
  · show retMin (calculateCoreU s2 aIn tin tout fee)
        ≤ retMin (calculateCoreU s1 aIn tin tout fee)
    unfold calculateCoreU
    by_cases hD : newInReserve aIn tin fee = 0
    · rw [if_pos hD, if_pos hD]
    rw [if_neg hD, if_neg hD]
    by_cases g2 : minOutDec5 s2 aIn tin tout fee ≤ 0 ∨ outDec aIn tin tout fee ≤ 0
    · rw [if_pos g2]
      exact Nat.zero_le _
    push_neg at g2
    obtain ⟨hm2, hout⟩ := g2
    have hanti := minOutDec5_anti h12 aIn tin tout fee hout.le
    have g2n : ¬ (minOutDec5 s2 aIn tin tout fee ≤ 0 ∨ outDec aIn tin tout fee ≤ 0) := by
      push_neg
      exact ⟨hm2, hout⟩
    have g1n : ¬ (minOutDec5 s1 aIn tin tout fee ≤ 0 ∨ outDec aIn tin tout fee ≤ 0) := by
      push_neg
      exact ⟨lt_of_lt_of_le hm2 hanti, hout⟩
    rw [if_neg g2n, if_neg g1n]
    have hDpos : 0 < newInReserve aIn tin fee := by
      have h0 : 0 ≤ newInReserve aIn tin fee := by
        rw [newInReserve_eq]
        exact add_nonneg (Nat.cast_nonneg tin) (specNet_nonneg hfee)
      exact h0.lt_of_ne (Ne.symm hD)
    have hqr : 0 ≤ divRound16 ((tin : ℚ) * tout) (newInReserve aIn tin fee) :=
      divRound16_nonneg (mul_nonneg (Nat.cast_nonneg tin) (Nat.cast_nonneg tout)) hDpos.le
    have hout_le : outDec aIn tin tout fee ≤ (tout : ℚ) := by
      unfold outDec
      linarith
    have hmin1_le : minOutDec5 s1 aIn tin tout fee ≤ outDec aIn tin tout fee := by
      have h := minOutDec5_anti (Nat.zero_le s1) aIn tin tout fee hout.le
      rwa [minOutDec5_zero] at h
    have hfloor : ⌊minOutDec5 s1 aIn tin tout fee⌋ < 2 ^ 64 := by
      have h1 : ⌊minOutDec5 s1 aIn tin tout fee⌋ ≤ ⌊(tout : ℚ)⌋ :=
        Int.floor_le_floor (le_trans hmin1_le hout_le)
      rw [Int.floor_natCast] at h1
      have h2 : (tout : ℤ) < 2 ^ 64 := by exact_mod_cast htout
      omega
    exact intPartU64_mono_of_lt hanti hfloor
  · unfold CalcMinAmountOutBySwapU
    rw [minOutDec_zero]
    by_cases hD : newInReserve aIn tin fee = 0
    · rw [if_pos hD]
      rfl
    rw [if_neg hD]
    by_cases g : ¬ 0 < outDec aIn tin tout fee ∨ ¬ 0 < outDec aIn tin tout fee
    · rw [if_pos g]
      rfl
    · rw [if_neg g]
      rfl
  · show retMin (calculateCoreU 0 aIn tin tout fee)
        = retExact (calculateCoreU 0 aIn tin tout fee)
    unfold calculateCoreU
    rw [minOutDec5_zero]
    by_cases hD : newInReserve aIn tin fee = 0
    · rw [if_pos hD]
      rfl
    rw [if_neg hD]
    by_cases g : outDec aIn tin tout fee ≤ 0 ∨ outDec aIn tin tout fee ≤ 0
    · rw [if_pos g]
      rfl
    · rw [if_neg g]
      rfl

/-- C5 witness: the amended monotonicity theorem applied at the concrete
scenario of C2 with slippage 100 versus 200 basis points. -/
theorem c5_witness :
    (100 ≤ 200 ∧ 2500 ≤ 1000000 ∧ 5000000 < 2 ^ 64) ∧
    (retMin (CalcMinAmountOutBySwapU 200 100000 1000000 5000000 2500)
        ≤ retMin (CalcMinAmountOutBySwapU 100 100000 1000000 5000000 2500) ∧
     retMin (CalculateMinAmountOutU 200 100000 true 5000000 1000000 2500)
        ≤ retMin (CalculateMinAmountOutU 100 100000 true 5000000 1000000 2500) ∧
     retMin (CalcMinAmountOutBySwapU 0 100000 1000000 5000000 2500)
        = retExact (CalcMinAmountOutBySwapU 0 100000 1000000 5000000 2500) ∧
     retMin (CalculateMinAmountOutU 0 100000 true 5000000 1000000 2500)
        = retExact (CalculateMinAmountOutU 0 100000 true 5000000 1000000 2500)) :=
  ⟨⟨by norm_num, by norm_num, by norm_num⟩,
   c5_slippage_monotone 100000 1000000 5000000 2500 100 200 (by norm_num) (by norm_num)
     (by norm_num)⟩

/-- C6 (amended): with a zero fee rate and a positive returned exact output,
the constant product is conserved within one unit of output, that is within
`inputReserve + amountIn` product units (not within 1 product unit as
originally claimed), plus the 16-decimal-digit division rounding:
`|(inputReserve + amountIn)*(outputReserve - exactAmountOut) -
inputReserve*outputReserve| ≤ (inputReserve + amountIn)*(1 + 1/(2*10^16))`. -/
theorem c6_invariant_product (slip aIn tin tout m e : ℕ)
    (h : CalcMinAmountOutBySwap slip aIn tin tout 0 = .ok m e) (he : 0 < e) :
    |((tin : ℚ) + aIn) * ((tout : ℚ) - e) - (tin : ℚ) * tout|
      ≤ ((tin : ℚ) + aIn) * (1 + 1 / (2 * 10 ^ 16)) := by
  have hfee0 : feeRateDecimal 0 = 0 := by
    unfold feeRateDecimal
    rw [Nat.cast_zero, divRound16_zero_num]
  have hnet : amountAfterFee aIn 0 = (aIn : ℚ) := by
    unfold amountAfterFee
    rw [hfee0]
    ring
  have hDeq : newInReserve aIn tin 0 = (tin : ℚ) + aIn := by
    unfold newInReserve
    rw [hnet]
  unfold CalcMinAmountOutBySwap at h
  by_cases hD : newInReserve aIn tin 0 = 0
  · rw [if_pos hD] at h
    simp at h
  rw [if_neg hD] at h
  by_cases hg : ¬ 0 < minOutDec slip aIn tin tout 0 ∨ ¬ 0 < outDec aIn tin tout 0
  · rw [if_pos hg] at h
    injection h with h1 h2
    exfalso
    omega
  rw [if_neg hg] at h
  injection h with h1 h2
  push_neg at hg
  obtain ⟨hm, hout⟩ := hg
  have hDpos : 0 < (tin : ℚ) + aIn := by
    have hne : (tin : ℚ) + aIn ≠ 0 := by
      rw [← hDeq]
      exact hD
    have hge : (0 : ℚ) ≤ (tin : ℚ) + aIn := by positivity
    exact hge.lt_of_ne (Ne.symm hne)
  have hout2 : outDec aIn tin tout 0
      = (tout : ℚ) - divRound16 ((tin : ℚ) * tout) ((tin : ℚ) + aIn) := by
    unfold outDec
    rw [hDeq]
  have habs : |divRound16 ((tin : ℚ) * tout) ((tin : ℚ) + aIn)
      - (tin : ℚ) * tout / ((tin : ℚ) + aIn)| ≤ 1 / (2 * 10 ^ 16) :=
    abs_divRound16_sub _ _
  have hqD : (tin : ℚ) * tout / ((tin : ℚ) + aIn) * ((tin : ℚ) + aIn)
      = (tin : ℚ) * tout := div_mul_cancel₀ _ (ne_of_gt hDpos)
  have hcast : ((e : ℕ) : ℚ)
      = (⌊(tout : ℚ) - divRound16 ((tin : ℚ) * tout) ((tin : ℚ) + aIn)⌋ : ℚ) := by
    rw [← h2, ← hout2, intPartU_cast hout.le, hout2]
  have hfl1 := Int.floor_le ((tout : ℚ) - divRound16 ((tin : ℚ) * tout) ((tin : ℚ) + aIn))
  have hfl2 := Int.lt_floor_add_one
    ((tout : ℚ) - divRound16 ((tin : ℚ) * tout) ((tin : ℚ) + aIn))
  have key : ((tin : ℚ) + aIn) * ((tout : ℚ) - e) - (tin : ℚ) * tout
      = ((tin : ℚ) + aIn) * (((tout : ℚ) - e)
          - (tin : ℚ) * tout / ((tin : ℚ) + aIn)) := by
    have hne : (tin : ℚ) + aIn ≠ 0 := ne_of_gt hDpos
    field_simp
    ring
  rw [key, abs_mul, abs_of_pos hDpos]
  apply mul_le_mul_of_nonneg_left _ hDpos.le
  rw [abs_le] at habs ⊢
  constructor
  · have hle : ((e : ℕ) : ℚ)
        ≤ (tout : ℚ) - divRound16 ((tin : ℚ) * tout) ((tin : ℚ) + aIn) := by
      rw [hcast]
      exact hfl1
    linarith [habs.1]
  · have hlt : (tout : ℚ) - divRound16 ((tin : ℚ) * tout) ((tin : ℚ) + aIn)
        < ((e : ℕ) : ℚ) + 1 := by
      rw [hcast]
      exact hfl2
    linarith [habs.2]

/-- C6 counterexample to the 1-unit tolerance: at `inputReserve = 10`,
`outputReserve = 10`, `amountIn = 3`, zero fee and zero slippage the code
returns `exactAmountOut = 2`, and
`(10 + 3)*(10 - 2) - 10*10 = 4`, which exceeds 1. -/
theorem c6_counterexample :
    CalcMinAmountOutBySwap 0 3 10 10 0 = .ok 2 2 ∧
    ¬ |((10 : ℚ) + 3) * ((10 : ℚ) - 2) - (10 : ℚ) * 10| ≤ 1 := by
  constructor
  · norm_num [CalcMinAmountOutBySwap, newInReserve, amountAfterFee, feeRateDecimal,
      FeeRateDenominatorValue, minOutDec, outDec, AllBpDecimal, divRound16, rndAway,
      intPartU]
    rfl
  · rw [show ((10 : ℚ) + 3) * ((10 : ℚ) - 2) - (10 : ℚ) * 10 = 4 by norm_num,
      abs_of_nonneg (by norm_num : (0 : ℚ) ≤ 4)]
    norm_num

/-- C6 witness: the amended conservation bound at the counterexample input. -/
theorem c6_witness :
    CalcMinAmountOutBySwap 0 3 10 10 0 = .ok 2 2 ∧ 0 < 2 ∧
    |(((10 : ℕ) : ℚ) + ((3 : ℕ) : ℚ)) * (((10 : ℕ) : ℚ) - ((2 : ℕ) : ℚ))
        - ((10 : ℕ) : ℚ) * ((10 : ℕ) : ℚ)|
      ≤ (((10 : ℕ) : ℚ) + ((3 : ℕ) : ℚ)) * (1 + 1 / (2 * 10 ^ 16)) := by
  have hok : CalcMinAmountOutBySwap 0 3 10 10 0 = .ok 2 2 := by
    norm_num [CalcMinAmountOutBySwap, newInReserve, amountAfterFee, feeRateDecimal,
      FeeRateDenominatorValue, minOutDec, outDec, AllBpDecimal, divRound16, rndAway,
      intPartU]
    rfl
  exact ⟨hok, by norm_num, c6_invariant_product 0 3 10 10 2 2 hok (by norm_num)⟩

/-! Claim theorems for the instruction classifier. -/

lemma leU64_le64 {X : ℕ} (h : X < 2 ^ 64) : leU64 (le64 X) = X := by
  have h2 : X < 18446744073709551616 := by
    have e : (2 : ℕ) ^ 64 = 18446744073709551616 := by norm_num
    rw [e] at h
    exact h
  simp only [leU64, le64, List.foldr_cons, List.foldr_nil]
  omega

lemma classify_buy_zero_payload :
    classify (BuyDiscriminator ++ le64 0 ++ le64 0)
      = ⟨.buy, some (0, 0), BuyDiscriminator⟩ := by
  show Classification.mk .buy (some (leU64 (le64 0), leU64 (le64 0))) BuyDiscriminator
      = Classification.mk .buy (some (0, 0)) BuyDiscriminator
  rfl

lemma classify_sell_zero_payload :
    classify (SellDiscriminator ++ le64 0 ++ le64 0)
      = ⟨.sell, some (0, 0), SellDiscriminator⟩ := by
  show Classification.mk .sell (some (leU64 (le64 0), leU64 (le64 0))) SellDiscriminator
      = Classification.mk .sell (some (0, 0)) SellDiscriminator
  rfl

/-- C7: classifier round-trip — a payload built as the Buy discriminator
followed by the little-endian encodings of X and Y classifies as a Buy with
decoded parameters `(X, Y)` from bytes `[8:16)` and `[16:24)`; symmetrically
for the Sell discriminator. -/
theorem c7_classifier_roundtrip (X Y : ℕ) (hX : X < 2 ^ 64) (hY : Y < 2 ^ 64) :
    classify (BuyDiscriminator ++ le64 X ++ le64 Y)
      = ⟨.buy, some (X, Y), BuyDiscriminator⟩ ∧
    classify (SellDiscriminator ++ le64 X ++ le64 Y)
      = ⟨.sell, some (X, Y), SellDiscriminator⟩ := by
  have hx := leU64_le64 hX
  have hy := leU64_le64 hY
  constructor
  · show Classification.mk .buy (some (leU64 (le64 X), leU64 (le64 Y))) BuyDiscriminator
        = Classification.mk .buy (some (X, Y)) BuyDiscriminator
    rw [hx, hy]
  · show Classification.mk .sell (some (leU64 (le64 X), leU64 (le64 Y))) SellDiscriminator
        = Classification.mk .sell (some (X, Y)) SellDiscriminator
    rw [hx, hy]

/-- C7 witness: the round trip at `X = 3`, `Y = 5`. -/
theorem c7_witness :
    (3 < 2 ^ 64 ∧ 5 < 2 ^ 64) ∧
    (classify (BuyDiscriminator ++ le64 3 ++ le64 5)
        = ⟨.buy, some (3, 5), BuyDiscriminator⟩ ∧
     classify (SellDiscriminator ++ le64 3 ++ le64 5)
        = ⟨.sell, some (3, 5), SellDiscriminator⟩) :=
  ⟨⟨by norm_num, by norm_num⟩, c7_classifier_roundtrip 3 5 (by norm_num) (by norm_num)⟩

/-- C8: a payload shorter than 8 bytes classifies as the TooShort outcome with
no parameters (a reported outcome, not an abort), and a payload of at least 8
bytes whose first 8 bytes match no known discriminator classifies as Unknown
with no parameters, retaining the raw discriminator bytes. -/
theorem c8_tooshort_and_unknown :
    (∀ p : List ℕ, p.length < 8 → classify p = ⟨.tooShort, none, []⟩) ∧
    (∀ p : List ℕ, 8 ≤ p.length → p.take 8 ≠ BuyDiscriminator →
      p.take 8 ≠ SellDiscriminator → p.take 8 ≠ CreatePoolDiscriminator →
      classify p = ⟨.unknown, none, p.take 8⟩) := by
  constructor
  · intro p hp
    unfold classify
    rw [if_pos hp]
  · intro p hp h1 h2 h3
    unfold classify
    rw [if_neg (not_lt.mpr hp), if_neg h1, if_neg h2, if_neg h3]

/-- C8 witness: a 3-byte payload and a 9-byte all-zero-discriminator payload.
-/
theorem c8_witness :
    (([1, 2, 3] : List ℕ).length < 8 ∧
      classify [1, 2, 3] = ⟨.tooShort, none, []⟩) ∧
    (8 ≤ ([0, 0, 0, 0, 0, 0, 0, 0, 9] : List ℕ).length ∧
      classify [0, 0, 0, 0, 0, 0, 0, 0, 9]
        = ⟨.unknown, none, ([0, 0, 0, 0, 0, 0, 0, 0, 9] : List ℕ).take 8⟩) :=
  ⟨⟨by norm_num, c8_tooshort_and_unknown.1 [1, 2, 3] (by norm_num)⟩,
   ⟨by norm_num, c8_tooshort_and_unknown.2 [0, 0, 0, 0, 0, 0, 0, 0, 9]
      (by norm_num) (by decide) (by decide) (by decide)⟩⟩

/-- C9: a payload matching the Buy or Sell discriminator but shorter than 24
bytes classifies as the matched kind with absent parameters (`none`), which is
distinguishable from a well-formed payload whose two amount fields are zero
(whose parameters decode to `some (0, 0)`). -/
theorem c9_short_swap_payload :
    (∀ p : List ℕ, p.take 8 = BuyDiscriminator → p.length < 24 →
      classify p = ⟨.buy, none, BuyDiscriminator⟩ ∧
      (classify p).params ≠ (classify (BuyDiscriminator ++ le64 0 ++ le64 0)).params) ∧
    (∀ p : List ℕ, p.take 8 = SellDiscriminator → p.length < 24 →
      classify p = ⟨.sell, none, SellDiscriminator⟩ ∧
      (classify p).params ≠ (classify (SellDiscriminator ++ le64 0 ++ le64 0)).params) := by
  have hfull : ∀ d : List ℕ, d.length = 8 → ∀ p : List ℕ, p.take 8 = d → 8 ≤ p.length := by
    intro d hd p hp
    have hlen := congrArg List.length hp
    rw [List.length_take, hd] at hlen
    exact min_eq_left_iff.mp hlen
  constructor
  · intro p hb hshort
    have h8 : 8 ≤ p.length := hfull BuyDiscriminator rfl p hb
    have hcl : classify p = ⟨.buy, none, BuyDiscriminator⟩ := by
      unfold classify
      rw [if_neg (not_lt.mpr h8), if_pos hb, if_neg (by omega : ¬ 24 ≤ p.length), hb]
    refine ⟨hcl, ?_⟩
    rw [hcl, classify_buy_zero_payload]
    simp
  · intro p hb hshort
    have h8 : 8 ≤ p.length := hfull SellDiscriminator rfl p hb
    have hcl : classify p = ⟨.sell, none, SellDiscriminator⟩ := by
      unfold classify
      rw [if_neg (not_lt.mpr h8), if_neg (by rw [hb]; decide), if_pos hb,
        if_neg (by omega : ¬ 24 ≤ p.length), hb]
    refine ⟨hcl, ?_⟩
    rw [hcl, classify_sell_zero_payload]
    simp

/-- C9 witness: the bare 8-byte discriminators themselves are short Buy and
Sell payloads. -/
theorem c9_witness :
    (BuyDiscriminator.take 8 = BuyDiscriminator ∧ BuyDiscriminator.length < 24 ∧
      classify BuyDiscriminator = ⟨.buy, none, BuyDiscriminator⟩) ∧
    (SellDiscriminator.take 8 = SellDiscriminator ∧ SellDiscriminator.length < 24 ∧
      classify SellDiscriminator = ⟨.sell, none, SellDiscriminator⟩) :=
  ⟨⟨by decide, by decide,
    (c9_short_swap_payload.1 BuyDiscriminator (by decide) (by decide)).1⟩,
   ⟨by decide, by decide,
    (c9_short_swap_payload.2 SellDiscriminator (by decide) (by decide)).1⟩⟩

end TradingBot
